import Mathlib

/-!
Verification of the RDMA byte-stream transport (RDMAConnection, RingBuffer,
BufferPool) of the Equalizer repository, as implemented in
src/libs/sequel/detail/config.cpp (the rdmaConnection.cpp translation unit).

The development shallowly embeds the protocol-relevant parts of the code:
pure computations become Lean functions, the environment calls (rdma verbs,
epoll, clocks) are abstracted as explicit outcome records threaded through the
control flow, and the credit protocol becomes a two-party transition system.
-/

namespace RDMA

/-- Protocol magic byte: the RDMA_PROTOCOL_MAGIC constant 0xC0. -/
def RDMA_PROTOCOL_MAGIC : Nat := 0xC0

/-- Protocol version byte: the RDMA_PROTOCOL_VERSION constant 0x03. -/
def RDMA_PROTOCOL_VERSION : Nat := 0x03

/-- Maximum byte count reported per RDMA write, 28 bits worth:
the source writes (( 2 << ( 28 - 1 )) - 1 ). -/
def MAX_BS : Nat := 2 <<< (28 - 1) - 1

/-- Maximum fc count reported per RDMA write, 4 bits worth:
the source writes (( 2 << ( 4 - 1 )) - 1 ). -/
def MAX_FC : Nat := 2 <<< (4 - 1) - 1

/-- Wire handshake private data. Modelled from the spec: the declaration of
struct RDMAConnParamData is in the connection header, which is not under src;
spec section 6 fixes the layout as magic u8, version u8, depth i32. -/
structure RDMAConnParamData where
  magic : Nat
  version : Nat
  depth : Int
deriving DecidableEq

/-- Protocol counters of one connection: the fields _depth, _writes, _fcs,
_wcredits and _fcredits of RDMAConnection (all signed in the source). -/
structure ProtoState where
  depth : Int
  writes : Int
  fcs : Int
  wcredits : Int
  fcredits : Int
deriving DecidableEq

/-- RDMAConnection::_initProtocol: rejects depth below 2, otherwise records
the depth, zeroes the tallies and sets _wcredits = depth / 2 - 2 and
_fcredits = depth / 2 + 2. The division only happens on a positive int32,
where C truncating division agrees with Lean integer division. -/
def initProtocol (depth : Int) : Option ProtoState :=
  if depth < 2 then none
  else some { depth := depth, writes := 0, fcs := 0,
              wcredits := depth / 2 - 2, fcredits := depth / 2 + 2 }

/-- Modelled from the spec: the ring pointer class of the connection header is
not under src. Spec section 3 (PointerTracker) describes three monotonically
increasing counters HEAD, MIDDLE and TAIL over a buffer of known size N, with
available space N - (HEAD - TAIL); the counters address the buffer modulo its
size. The counters are modelled as unbounded naturals: the 32-bit wraparound
of the source counters is representation only, every use below is a
difference or a remainder of counters. -/
structure RingPtr where
  size : Nat
  head : Nat
  middle : Nat
  tail : Nat
deriving DecidableEq

/-- Bytes available to consume between TAIL and HEAD (spec: HEAD - TAIL). -/
def RingPtr.available (p : RingPtr) : Nat := p.head - p.tail

/-- Free space in the ring (spec: N - (HEAD - TAIL)). -/
def RingPtr.negAvailable (p : RingPtr) : Nat := p.size - (p.head - p.tail)

/-- Bytes filled but not yet posted, between MIDDLE and HEAD. -/
def RingPtr.availableHM (p : RingPtr) : Nat := p.head - p.middle

/-- The ring is empty when no bytes are available. -/
def RingPtr.isEmpty (p : RingPtr) : Bool := p.head == p.tail

/-- The ring is full when the whole capacity is in use. -/
def RingPtr.isFull (p : RingPtr) : Bool := p.head - p.tail == p.size

/-- Buffer offset addressed by a counter value: the counter modulo the size. -/
def RingPtr.ptr (p : RingPtr) (counter : Nat) : Nat := counter % p.size

/-- Advance the HEAD counter. -/
def RingPtr.incrHead (p : RingPtr) (n : Nat) : RingPtr :=
  { p with head := p.head + n }

/-- Advance the MIDDLE counter. -/
def RingPtr.incrMiddle (p : RingPtr) (n : Nat) : RingPtr :=
  { p with middle := p.middle + n }

/-- Advance the TAIL counter. -/
def RingPtr.incrTail (p : RingPtr) (n : Nat) : RingPtr :=
  { p with tail := p.tail + n }

/-- Reset the counters for a buffer of the given size. -/
def RingPtr.clear (n : Nat) : RingPtr :=
  { size := n, head := 0, middle := 0, tail := 0 }

/-- Byte count taken by RDMAConnection::_drain:
b = min( bytes, _sinkptr.available( )). -/
def drainCount (sink : RingPtr) (bytes : Nat) : Nat :=
  min bytes sink.available

/-- RDMAConnection::_drain: copies drainCount bytes out of the sink ring
starting at the TAIL offset (a single flat memcpy through the double
mapping, where virtual offset i aliases physical offset i % size), then
advances TAIL by exactly that count. phys gives the physical byte of the
sink buffer at each offset; the copied bytes are returned explicitly. -/
def drain (phys : Nat → Nat) (sink : RingPtr) (bytes : Nat) :
    RingPtr × List Nat :=
  (sink.incrTail (drainCount sink bytes),
   (List.range (drainCount sink bytes)).map
     (fun i => phys ((sink.ptr sink.tail + i) % sink.size)))

/-- Byte count taken by RDMAConnection::_fill. The WRAP macro is not defined
anywhere in the repository, so the source compiles the clamp
b = min( b, getSize( ) - ptr( HEAD )) after
b = min( bytes, min( negAvailable source, negAvailable remote view )):
a single fill never crosses the end of the source buffer. The source ring
pointer is cleared with the source buffer size, so src.size is getSize( ). -/
def fillCount (src rview : RingPtr) (bytes : Nat) : Nat :=
  min (min bytes (min src.negAvailable rview.negAvailable))
      (src.size - src.ptr src.head)

/-- The fill count the spec text describes, for the comparison in claim C8:
min of the requested bytes and the free space (no end-of-buffer clamp). -/
def fillCountSpec (src rview : RingPtr) (bytes : Nat) : Nat :=
  min bytes (min src.negAvailable rview.negAvailable)

/-- RDMAConnection::_fill: copies fillCount bytes of the input into the source
ring at the HEAD offset and advances HEAD by exactly that count. -/
def fill (src rview : RingPtr) (bytes : Nat) : RingPtr × Nat :=
  (src.incrHead (fillCount src rview bytes), fillCount src rview bytes)

/-- Clamp applied by RDMAConnection::write before filling:
can_put = std::min( bytes, MAX_BS ). -/
def writeCanPut (bytes : Nat) : Nat := min bytes MAX_BS

/-- Fc count reported by RDMAConnection::_makeImm:
std::min( MAX_FC, (uint16_t)_fcs ); the uint16 cast of the nonnegative
counter is a remainder by 65536. -/
def immFcsReported (fcs : Int) : Nat := min MAX_FC (fcs.toNat % 65536)

/-- RDMAConnection::_makeImm: packs the byte count into the low 28 bits
(bitfield bytes_sent:28) and the reported fc count into bits 28 to 32
(bitfield fcs_received:4) of the 32-bit immediate, and subtracts the reported
count from _fcs. htonl only reorders the bytes on the wire and does not
change the packed value. Returns the immediate and the new _fcs. -/
def makeImm (fcs : Int) (b : Nat) : Nat × Int :=
  (b % 2 ^ 28 + 2 ^ 28 * immFcsReported fcs, fcs - immFcsReported fcs)

/-- Low 28 bits of a received immediate: the bytes_sent field. -/
def immBytesSent (imm : Nat) : Nat := imm % 2 ^ 28

/-- Bits 28 to 32 of a received immediate: the fcs_received field. -/
def immFcsRecvd (imm : Nat) : Nat := imm / 2 ^ 28 % 16

/-- State touched by RDMAConnection::_recvRDMAWrite: the protocol counters,
the sink ring pointer and the available-bytes signal (the eventfd payload
written by _incrAvailableBytes). -/
structure RecvState where
  proto : ProtoState
  sinkptr : RingPtr
  availBytes : Nat
deriving DecidableEq

/-- RDMAConnection::_recvRDMAWrite: unpacks the immediate, advances the sink
HEAD and the available-bytes signal by bytes_sent, adds fcs_received to
_fcredits and increments _writes. -/
def recvRDMAWrite (s : RecvState) (imm : Nat) : RecvState :=
  { proto := { s.proto with
      fcredits := s.proto.fcredits + immFcsRecvd imm,
      writes := s.proto.writes + 1 },
    sinkptr := s.sinkptr.incrHead (immBytesSent imm),
    availBytes := s.availBytes + immBytesSent imm }

/-- Flow control payload (struct RDMAFCPayload): two u32 counts. -/
structure RDMAFCPayload where
  bytes_received : Nat
  writes_received : Nat
deriving DecidableEq

/-- RDMAConnection::_recvFC: advances the TAIL of the remote-buffer view by
bytes_received, adds writes_received to _wcredits and increments _fcs. -/
def recvFC (proto : ProtoState) (rview : RingPtr) (fc : RDMAFCPayload) :
    ProtoState × RingPtr :=
  ({ proto with wcredits := proto.wcredits + fc.writes_received,
                fcs := proto.fcs + 1 },
   rview.incrTail fc.bytes_received)

/-- Connection states of the state machine (enum State of the Connection
base class, as used by setState in rdmaConnection.cpp). -/
inductive ConnState
| CLOSED
| CONNECTING
| LISTENING
| CONNECTED
| CLOSING
deriving DecidableEq

/-- Connection state after close( ): _close drives every state to CLOSED
(through CLOSING when it was not already CLOSED). -/
def closeState : ConnState → ConnState := fun _ => ConnState.CLOSED

/-- Observable teardown state: the connection state plus how many times
_cleanup has released the owned resources. -/
structure CloseObs where
  state : ConnState
  cleanups : Nat
deriving DecidableEq

/-- RDMAConnection::_close: when the state is not CLOSED it transitions
through CLOSING to CLOSED and runs _cleanup exactly once; when the state is
already CLOSED it does nothing at all. -/
def closeOp (s : CloseObs) : CloseObs :=
  if s.state = ConnState.CLOSED then s
  else { state := ConnState.CLOSED, cleanups := s.cleanups + 1 }

/-- Outcomes of the fallible environment calls made by RDMAConnection::connect,
listed in program order: each Bool is the success of the corresponding guarded
step, queueDepth is the IATTR_RDMA_SEND_QUEUE_DEPTH attribute, establishedOk
is _connect( ) (rdma_connect plus the ESTABLISHED event), and peerCpd is the
private data delivered with that event. -/
structure ConnectEnv where
  port : Nat
  lookupOk : Bool
  notifierOk : Bool
  eventChannelOk : Bool
  idOk : Bool
  resolveAddrOk : Bool
  queueDepth : Int
  verbsOk : Bool
  qpOk : Bool
  bytesAvailOk : Bool
  buffersOk : Bool
  routeOk : Bool
  postReceivesOk : Bool
  establishedOk : Bool
  peerCpd : RDMAConnParamData
  postSetupOk : Bool
  waitSetupOk : Bool
deriving DecidableEq

/-- Result of a connect or accept attempt: the returned Bool, the final
connection state, the protocol counters if _initProtocol ran successfully,
and whether rdma_reject was issued (acceptor only). -/
structure HandshakeResult where
  success : Bool
  state : ConnState
  proto : Option ProtoState
  rejected : Bool
deriving DecidableEq

/-- Success of the connect steps before _initProtocol, in source order:
_lookupAddress, _createNotifier, _createEventChannel, _createId and
_resolveAddress; each failure takes the same goto err path, so consecutive
steps are grouped into one conjunction. -/
def connectResolveOk (env : ConnectEnv) : Bool :=
  env.lookupOk && env.notifierOk && env.eventChannelOk && env.idOk &&
  env.resolveAddrOk

/-- Success of the connect steps between _initProtocol and the magic check,
in source order: _initVerbs, _createQP, _createBytesAvailableFD,
_initBuffers, _resolveRoute, _postReceives and _connect (which waits for the
ESTABLISHED event); each failure takes the same goto err path. -/
def connectVerbsOk (env : ConnectEnv) : Bool :=
  env.verbsOk && env.qpOk && env.bytesAvailOk && env.buffersOk &&
  env.routeOk && env.postReceivesOk && env.establishedOk

/-- Success of the connect steps after the magic check, in source order:
_postSetup and _waitRecvSetup; each failure takes the same goto err path. -/
def connectSetupOk (env : ConnectEnv) : Bool :=
  env.postSetupOk && env.waitSetupOk

/-- RDMAConnection::connect with the environment calls abstracted by env,
mirroring the source order of the guarded steps. A state other than CLOSED or
a zero port returns false without touching the state; afterwards every failure
takes the goto err path, which ends in close( ) and hence state CLOSED. The
magic and version of the peer private data are checked right after the
ESTABLISHED event and abort the attempt on mismatch. -/
def connect (st : ConnState) (env : ConnectEnv) : HandshakeResult :=
  if st ≠ ConnState.CLOSED then ⟨false, st, none, false⟩
  else if env.port = 0 then ⟨false, st, none, false⟩
  else if ¬ connectResolveOk env then ⟨false, closeState st, none, false⟩
  else match initProtocol env.queueDepth with
  | none => ⟨false, closeState st, none, false⟩
  | some proto =>
    if ¬ connectVerbsOk env then ⟨false, closeState st, some proto, false⟩
    else if env.peerCpd.magic ≠ RDMA_PROTOCOL_MAGIC ∨
            env.peerCpd.version ≠ RDMA_PROTOCOL_VERSION then
      ⟨false, closeState st, some proto, false⟩
    else if ¬ connectSetupOk env then ⟨false, closeState st, some proto, false⟩
    else ⟨true, ConnState.CONNECTED, some proto, false⟩

/-- Outcomes of the fallible environment calls made by
RDMAConnection::_finishAccept, in program order; establishedOk is _accept( )
(rdma_accept plus the ESTABLISHED event). -/
structure AcceptEnv where
  notifierOk : Bool
  eventChannelOk : Bool
  migrateOk : Bool
  verbsOk : Bool
  qpOk : Bool
  bytesAvailOk : Bool
  buffersOk : Bool
  postReceivesOk : Bool
  establishedOk : Bool
  waitSetupOk : Bool
  postSetupOk : Bool
deriving DecidableEq

/-- Success of the accept steps between the magic check and _initProtocol,
in source order: _createNotifier, _createEventChannel and _migrateId; each
failure takes the same err_reject path, so they are grouped into one
conjunction. -/
def acceptChannelOk (env : AcceptEnv) : Bool :=
  env.notifierOk && env.eventChannelOk && env.migrateOk

/-- Success of the accept steps between _initProtocol and _accept, in source
order: _initVerbs, _createQP, _createBytesAvailableFD, _initBuffers and
_postReceives; each failure takes the same err_reject path. -/
def acceptVerbsOk (env : AcceptEnv) : Bool :=
  env.verbsOk && env.qpOk && env.bytesAvailOk && env.buffersOk &&
  env.postReceivesOk

/-- Success of the accept steps after _accept, in source order:
_waitRecvSetup and _postSetup; each failure takes the same goto err path
(close without reject). -/
def acceptSetupOk (env : AcceptEnv) : Bool :=
  env.waitSetupOk && env.postSetupOk

/-- RDMAConnection::_finishAccept on the fresh child connection, with the
environment calls abstracted by env and cpd the private data carried by the
connect request. A magic or version mismatch, a depth rejected by
_initProtocol and every other failure before _accept take the err_reject
path, which issues rdma_reject and then close( ); failures from _accept
(establishedOk) on skip the reject. The protocol state is initialized from
cpd.depth exactly, with no clamping. -/
def finishAccept (cpd : RDMAConnParamData) (env : AcceptEnv) : HandshakeResult :=
  if cpd.magic ≠ RDMA_PROTOCOL_MAGIC ∨ cpd.version ≠ RDMA_PROTOCOL_VERSION then
    ⟨false, ConnState.CLOSED, none, true⟩
  else if ¬ acceptChannelOk env then ⟨false, ConnState.CLOSED, none, true⟩
  else match initProtocol cpd.depth with
  | none => ⟨false, ConnState.CLOSED, none, true⟩
  | some proto =>
    if ¬ acceptVerbsOk env then ⟨false, ConnState.CLOSED, some proto, true⟩
    else if ¬ env.establishedOk then ⟨false, ConnState.CLOSED, some proto, false⟩
    else if ¬ acceptSetupOk env then ⟨false, ConnState.CLOSED, some proto, false⟩
    else ⟨true, ConnState.CONNECTED, some proto, false⟩

/-- An AcceptEnv where every environment call succeeds. -/
def allOkAcceptEnv : AcceptEnv :=
  ⟨true, true, true, true, true, true, true, true, true, true, true⟩

/-- Environment of one iteration of the readSync retry loop, in source order:
the outcomes of the environment calls and the values they yield. established
and fcredits are the values seen after _checkDisconnected and _checkCQ;
sinkAvailable is _sinkptr.available( ) just before _drain; the two timeout
flags are the clock comparisons against Global::getTimeout( ). -/
structure ReadIterEnv where
  checkDisconnectedOk : Bool
  cqEvent : Bool
  rearmOk : Bool
  checkCQOk : Bool
  established : Bool
  fcredits : Int
  creditTimedOut : Bool
  bufEvent : Bool
  availableBytes : Nat
  sinkAvailable : Nat
  drainTimedOut : Bool
deriving DecidableEq

/-- Outcome of one iteration of the readSync loop body. -/
inductive IterOut
| fail
| retZero
| ret (bytesTaken : Nat)
| again (extraEvent : Bool)
deriving DecidableEq

/-- One iteration of the RDMAConnection::readSync loop body (label retry),
mirroring the guard order of the source; _needFC( ) is constantly true in the
source, so the credit guard is established and fcredits == 0. The fail
outcome is the goto err path. -/
def readSyncIter (requested : Nat) (block : Bool) (extraEvent : Bool)
    (env : ReadIterEnv) : IterOut :=
  if ¬ env.checkDisconnectedOk then .fail
  else if env.cqEvent ∧ ¬ env.rearmOk then .fail
  else if ¬ env.checkCQOk then .fail
  else if env.established ∧ env.fcredits = 0 then
    (if env.creditTimedOut then .fail else .again extraEvent)
  else if env.established ∧ ¬ env.bufEvent then
    (if extraEvent ∧ ¬ block then .retZero else .again true)
  else if env.bufEvent ∧ env.availableBytes = 0 then .fail
  else if min requested env.sinkAvailable = 0 then
    (if env.sinkAvailable = 0 ∧ ¬ env.established then .fail
     else if env.drainTimedOut then .fail
     else .again extraEvent)
  else .ret (min requested env.sinkAvailable)

/-- The readSync retry loop over a finite trace of iteration environments:
none when the trace is exhausted while still looping, otherwise the returned
value and the final connection state. The goto err path calls close( ) before
returning -1. -/
def readSyncLoop (requested : Nat) (block : Bool) :
    List ReadIterEnv → Bool → Option (Int × ConnState)
  | [], _ => none
  | env :: rest, extra =>
    match readSyncIter requested block extra env with
    | .fail => some (-1, closeState ConnState.CONNECTED)
    | .retZero => some (0, ConnState.CONNECTED)
    | .ret b => some (b, ConnState.CONNECTED)
    | .again x => readSyncLoop requested block rest x

/-- RDMAConnection::readSync: a state other than CONNECTED takes the goto err
path immediately (close( ), return -1); otherwise the retry loop runs with
extra_event initially false. -/
def readSync (st : ConnState) (requested : Nat) (block : Bool)
    (envs : List ReadIterEnv) : Option (Int × ConnState) :=
  if st ≠ ConnState.CONNECTED then some (-1, closeState st)
  else readSyncLoop requested block envs false

/-- Immediate datum in flight with an RDMA write: the two packed fields of
struct RDMAFCImm. -/
structure ImmData where
  bytes_sent : Nat
  fcs_received : Nat
deriving DecidableEq

/-- Counters of one endpoint in the two-party credit model (a projection of
ProtoState for a fixed depth shared by both sides). -/
structure Endpoint where
  wcredits : Int
  fcredits : Int
  writes : Int
  fcs : Int
deriving DecidableEq

/-- Endpoint counters as set by _initProtocol for the given depth. -/
def Endpoint.start (d : Int) : Endpoint :=
  { wcredits := d / 2 - 2, fcredits := d / 2 + 2, writes := 0, fcs := 0 }

/-- Closed two-party protocol state: both endpoints plus the messages in
flight in each direction (RDMA writes with their immediate data, and FC
messages), delivered in order per channel. -/
structure Net where
  a : Endpoint
  b : Endpoint
  writesAB : List ImmData
  fcsAB : List RDMAFCPayload
  writesBA : List ImmData
  fcsBA : List RDMAFCPayload
deriving DecidableEq

/-- Initial two-party state: both sides have run _initProtocol with the same
negotiated depth (the acceptor initializes from the depth the initiator sent)
and nothing is in flight. -/
def Net.start (d : Int) : Net :=
  { a := Endpoint.start d, b := Endpoint.start d,
    writesAB := [], fcsAB := [], writesBA := [], fcsBA := [] }

/-- One step of the closed two-party system, with four constructors per side
mirroring the source operations that touch the credit counters:
postWrite is _postRDMAWrite preceded by the write( ) spin while
_wcredits == 0 (the credit is consumed and _makeImm packs and subtracts the
reported fc count); recvWrite is _recvRDMAWrite on the oldest write in
flight; postFC is _postFC preceded by the readSync spin while
_fcredits == 0 (the payload carries the u32 cast of _writes, which is then
subtracted, and _postMessage consumes one fc credit); recvFC is _recvFC on
the oldest FC message in flight. -/
inductive Step : Net → Net → Prop
| postWriteA (n : Net) (bytes : Nat) (h : n.a.wcredits ≠ 0) :
    Step n { n with
      a := { n.a with wcredits := n.a.wcredits - 1,
                      fcs := n.a.fcs - immFcsReported n.a.fcs },
      writesAB := n.writesAB ++ [⟨bytes, immFcsReported n.a.fcs⟩] }
| postWriteB (n : Net) (bytes : Nat) (h : n.b.wcredits ≠ 0) :
    Step n { n with
      b := { n.b with wcredits := n.b.wcredits - 1,
                      fcs := n.b.fcs - immFcsReported n.b.fcs },
      writesBA := n.writesBA ++ [⟨bytes, immFcsReported n.b.fcs⟩] }
| recvWriteB (n : Net) (w : ImmData) (rest : List ImmData)
    (h : n.writesAB = w :: rest) :
    Step n { n with
      b := { n.b with fcredits := n.b.fcredits + w.fcs_received,
                      writes := n.b.writes + 1 },
      writesAB := rest }
| recvWriteA (n : Net) (w : ImmData) (rest : List ImmData)
    (h : n.writesBA = w :: rest) :
    Step n { n with
      a := { n.a with fcredits := n.a.fcredits + w.fcs_received,
                      writes := n.a.writes + 1 },
      writesBA := rest }
| postFCA (n : Net) (bytes : Nat) (h : n.a.fcredits ≠ 0) :
    Step n { n with
      a := { n.a with fcredits := n.a.fcredits - 1,
                      writes := n.a.writes - (n.a.writes.toNat % 2 ^ 32 : Nat) },
      fcsAB := n.fcsAB ++ [⟨bytes, n.a.writes.toNat % 2 ^ 32⟩] }
| postFCB (n : Net) (bytes : Nat) (h : n.b.fcredits ≠ 0) :
    Step n { n with
      b := { n.b with fcredits := n.b.fcredits - 1,
                      writes := n.b.writes - (n.b.writes.toNat % 2 ^ 32 : Nat) },
      fcsBA := n.fcsBA ++ [⟨bytes, n.b.writes.toNat % 2 ^ 32⟩] }
| recvFCB (n : Net) (m : RDMAFCPayload) (rest : List RDMAFCPayload)
    (h : n.fcsAB = m :: rest) :
    Step n { n with
      b := { n.b with wcredits := n.b.wcredits + m.writes_received,
                      fcs := n.b.fcs + 1 },
      fcsAB := rest }
| recvFCA (n : Net) (m : RDMAFCPayload) (rest : List RDMAFCPayload)
    (h : n.fcsBA = m :: rest) :
    Step n { n with
      a := { n.a with wcredits := n.a.wcredits + m.writes_received,
                      fcs := n.a.fcs + 1 },
      fcsBA := rest }

/-- States of the two-party system reachable from the initial state by
protocol steps. -/
inductive Reachable (d : Int) : Net → Prop
| start : Reachable d (Net.start d)
| step {n n' : Net} : Reachable d n → Step n n' → Reachable d n'

/-- Sum of the writes_received fields of the FC messages in flight. -/
def sumWrites (l : List RDMAFCPayload) : Int :=
  l.foldr (fun m acc => (m.writes_received : Int) + acc) 0

/-- Sum of the fcs_received fields of the immediate data in flight. -/
def sumFcs (l : List ImmData) : Int :=
  l.foldr (fun w acc => (w.fcs_received : Int) + acc) 0

/-- Credit conservation invariant of the closed two-party system: every
counter is nonnegative, and for each direction the write tokens
(write credits, writes in flight, unacknowledged received writes, counts
carried by FC messages in flight) and the fc tokens (fc credits, FC messages
in flight, unacknowledged received FCs, counts carried by immediates in
flight) are conserved at their initial totals. -/
def NetInv (d : Int) (n : Net) : Prop :=
  0 ≤ n.a.wcredits ∧ 0 ≤ n.a.fcredits ∧ 0 ≤ n.a.writes ∧ 0 ≤ n.a.fcs ∧
  0 ≤ n.b.wcredits ∧ 0 ≤ n.b.fcredits ∧ 0 ≤ n.b.writes ∧ 0 ≤ n.b.fcs ∧
  n.a.wcredits + n.writesAB.length + n.b.writes + sumWrites n.fcsBA
    = d / 2 - 2 ∧
  n.b.wcredits + n.writesBA.length + n.a.writes + sumWrites n.fcsAB
    = d / 2 - 2 ∧
  n.a.fcredits + n.fcsAB.length + n.b.fcs + sumFcs n.writesBA = d / 2 + 2 ∧
  n.b.fcredits + n.fcsBA.length + n.a.fcs + sumFcs n.writesAB = d / 2 + 2

/-- Contiguous physical segment: len bytes starting at physical offset a. -/
def segment (phys : Nat → Nat) (a len : Nat) : List Nat :=
  (List.range len).map (fun i => phys (a + i))

/-- Reading len bytes at virtual offset o of the doubly mapped region built
by RingBuffer::resize: the same physical pages are mapped twice consecutively
(two mmap calls of the same shm file at _map and _map + size), so virtual
offset i aliases physical offset i % N for every i below 2N. -/
def flatSlice (phys : Nat → Nat) (N o len : Nat) : List Nat :=
  (List.range len).map (fun i => phys ((o + i) % N))

/-- A concrete physical sink content used by witnesses. -/
def demoPhys : Nat → Nat := fun i => i + 1

/-- A concrete source ring pointer state: 6 bytes already sent and consumed
(all three counters at 6), so the buffer is empty and ptr HEAD is 6 of 8. -/
def c8src : RingPtr := ⟨8, 6, 6, 6⟩

/-- A concrete remote-buffer view matching c8src: empty, 8 bytes free. -/
def c8rview : RingPtr := ⟨8, 6, 6, 6⟩

/-- A concrete receive state: depth 8 counters straight out of _initProtocol
plus an empty sink ring of size 16. -/
def c4State : RecvState := ⟨⟨8, 0, 0, 2, 6⟩, ⟨16, 0, 0, 0⟩, 0⟩

/-- A ConnectEnv in which every environment call succeeds, with port 4242,
queue depth 16 and the given peer private data. -/
def allOkConnectEnv (cpd : RDMAConnParamData) : ConnectEnv :=
  ⟨4242, true, true, true, true, true, 16, true, true, true, true, true,
   true, true, cpd, true, true⟩

/-- Private data with a wrong magic byte (0x00 instead of 0xC0). -/
def badMagicCpd : RDMAConnParamData := ⟨0x00, 0x03, 16⟩

/-- Private data with valid magic and version but proposed depth 1. -/
def depth1Cpd : RDMAConnParamData :=
  ⟨RDMA_PROTOCOL_MAGIC, RDMA_PROTOCOL_VERSION, 1⟩

/-- A readSync iteration environment describing end of stream: the checks
succeed, the connection is no longer established, no buffer event is pending
and the sink ring is empty. -/
def eofIterEnv : ReadIterEnv :=
  ⟨true, false, true, true, false, 3, false, false, 0, 0, false⟩

theorem sumWrites_nonneg (l : List RDMAFCPayload) : 0 ≤ sumWrites l := by
  induction l with
  | nil => simp [sumWrites]
  | cons m rest ih =>
    simp only [sumWrites, List.foldr_cons] at ih ⊢
    positivity

theorem sumFcs_nonneg (l : List ImmData) : 0 ≤ sumFcs l := by
  induction l with
  | nil => simp [sumFcs]
  | cons w rest ih =>
    simp only [sumFcs, List.foldr_cons] at ih ⊢
    positivity

theorem sumWrites_append (l : List RDMAFCPayload) (m : RDMAFCPayload) :
    sumWrites (l ++ [m]) = sumWrites l + m.writes_received := by
  induction l with
  | nil => simp [sumWrites]
  | cons x rest ih =>
    simp only [sumWrites, List.foldr_cons, List.cons_append] at ih ⊢
    rw [ih]; ring

theorem sumFcs_append (l : List ImmData) (w : ImmData) :
    sumFcs (l ++ [w]) = sumFcs l + w.fcs_received := by
  induction l with
  | nil => simp [sumFcs]
  | cons x rest ih =>
    simp only [sumFcs, List.foldr_cons, List.cons_append] at ih ⊢
    rw [ih]; ring

theorem immFcsReported_le (fcs : Int) (h : 0 ≤ fcs) :
    (immFcsReported fcs : Int) ≤ fcs ∧ immFcsReported fcs ≤ 15 := by
  unfold immFcsReported MAX_FC
  have h1 : fcs.toNat % 65536 ≤ fcs.toNat := Nat.mod_le _ _
  omega

theorem sumWrites_cons (m : RDMAFCPayload) (l : List RDMAFCPayload) :
    sumWrites (m :: l) = m.writes_received + sumWrites l := rfl

theorem sumFcs_cons (w : ImmData) (l : List ImmData) :
    sumFcs (w :: l) = w.fcs_received + sumFcs l := rfl

/-- The two-party starting endpoint agrees with _initProtocol. -/
theorem endpointStart_initProtocol (d : Int) (hd : 2 ≤ d) :
    initProtocol d =
      some (ProtoState.mk d (Endpoint.start d).writes (Endpoint.start d).fcs
        (Endpoint.start d).wcredits (Endpoint.start d).fcredits) := by
  unfold initProtocol Endpoint.start
  rw [if_neg (by omega)]

theorem netInv_start (d : Int) (hd : 4 ≤ d) : NetInv d (Net.start d) := by
  unfold NetInv Net.start Endpoint.start sumWrites sumFcs
  simp only [List.foldr_nil, List.length_nil]
  constructor
  · omega
  · simp only [Nat.cast_zero]
    omega

theorem netInv_step {d : Int} {n n' : Net} (hs : Step n n') (hi : NetInv d n) :
    NetInv d n' := by
  obtain ⟨h1, h2, h3, h4, h5, h6, h7, h8, e1, e2, e3, e4⟩ := hi
  cases hs with
  | postWriteA bytes h =>
    have hr := immFcsReported_le n.a.fcs h4
    unfold NetInv
    simp only [sumWrites_append, sumFcs_append, List.length_append,
      List.length_cons, List.length_nil]
    omega
  | postWriteB bytes h =>
    have hr := immFcsReported_le n.b.fcs h8
    unfold NetInv
    simp only [sumWrites_append, sumFcs_append, List.length_append,
      List.length_cons, List.length_nil]
    omega
  | recvWriteB w rest h =>
    rw [h] at e1 e4
    rw [sumFcs_cons] at e4
    simp only [List.length_cons] at e1
    unfold NetInv
    dsimp only
    omega
  | recvWriteA w rest h =>
    rw [h] at e2 e3
    rw [sumFcs_cons] at e3
    simp only [List.length_cons] at e2
    unfold NetInv
    dsimp only
    omega
  | postFCA bytes h =>
    unfold NetInv
    simp only [sumWrites_append, sumFcs_append, List.length_append,
      List.length_cons, List.length_nil]
    omega
  | postFCB bytes h =>
    unfold NetInv
    simp only [sumWrites_append, sumFcs_append, List.length_append,
      List.length_cons, List.length_nil]
    omega
  | recvFCB m rest h =>
    rw [h] at e2 e3
    rw [sumWrites_cons] at e2
    simp only [List.length_cons] at e3
    unfold NetInv
    dsimp only
    omega
  | recvFCA m rest h =>
    rw [h] at e1 e4
    rw [sumWrites_cons] at e1
    simp only [List.length_cons] at e4
    unfold NetInv
    dsimp only
    omega

theorem reachable_netInv {d : Int} (hd : 4 ≤ d) {n : Net}
    (hr : Reachable d n) : NetInv d n := by
  induction hr with
  | start => exact netInv_start d hd
  | step _ hs ih => exact netInv_step hs ih

theorem MAX_BS_eq : MAX_BS = 2 ^ 28 - 1 := rfl

theorem MAX_FC_eq : MAX_FC = 15 := rfl

/-- A successful connect implies the peer private data carried the expected
magic and version bytes. -/
theorem connect_success_magic (st : ConnState) (env : ConnectEnv)
    (h : (connect st env).success = true) :
    env.peerCpd.magic = RDMA_PROTOCOL_MAGIC ∧
    env.peerCpd.version = RDMA_PROTOCOL_VERSION := by
  unfold connect at h
  repeat' split at h
  all_goals simp_all

/-- From the CLOSED state, connect either ends CLOSED again or succeeds. -/
theorem connect_closed_result (env : ConnectEnv) :
    (connect ConnState.CLOSED env).state = ConnState.CLOSED ∨
    (connect ConnState.CLOSED env).success = true := by
  unfold connect
  repeat' split
  all_goals simp [closeState]

/-- A successful finishAccept implies the request private data carried the
expected magic and version bytes. -/
theorem finishAccept_success_magic (cpd : RDMAConnParamData) (env : AcceptEnv)
    (h : (finishAccept cpd env).success = true) :
    cpd.magic = RDMA_PROTOCOL_MAGIC ∧
    cpd.version = RDMA_PROTOCOL_VERSION := by
  unfold finishAccept at h
  repeat' split at h
  all_goals simp_all

/-- Characterization of a returning drain iteration: the bytes taken are
min( requested, sink available ) and nonzero. -/
theorem readSyncIter_ret (requested : Nat) (block : Bool) (extra : Bool)
    (env : ReadIterEnv) (b : Nat)
    (h : readSyncIter requested block extra env = IterOut.ret b) :
    b = min requested env.sinkAvailable ∧ b ≠ 0 := by
  unfold readSyncIter at h
  repeat' split at h
  all_goals simp_all
  omega

/-- Every value the readSync loop returns is either -1 with the connection
closed, or a nonnegative drain count bounded by the request. -/
theorem readSyncLoop_result (requested : Nat) (block : Bool) :
    ∀ (envs : List ReadIterEnv) (extra : Bool) (r : Int) (s : ConnState),
      readSyncLoop requested block envs extra = some (r, s) →
      (r = -1 ∧ s = ConnState.CLOSED) ∨
      (0 ≤ r ∧ r ≤ (requested : Int) ∧ s = ConnState.CONNECTED) := by
  intro envs
  induction envs with
  | nil =>
    intro extra r s h
    simp [readSyncLoop] at h
  | cons e rest ih =>
    intro extra r s h
    unfold readSyncLoop at h
    cases hiter : readSyncIter requested block extra e with
    | fail =>
      rw [hiter] at h
      simp only [Option.some.injEq, Prod.mk.injEq] at h
      left
      exact ⟨h.1.symm, h.2.symm⟩
    | retZero =>
      rw [hiter] at h
      simp only [Option.some.injEq, Prod.mk.injEq] at h
      obtain ⟨h0, hs⟩ := h
      right
      exact ⟨by omega, by omega, hs.symm⟩
    | ret b =>
      rw [hiter] at h
      simp only [Option.some.injEq, Prod.mk.injEq] at h
      obtain ⟨h0, hs⟩ := h
      have hb := (readSyncIter_ret requested block extra e b hiter).1
      have hle : b ≤ requested := by
        rw [hb]
        exact Nat.min_le_left _ _
      right
      exact ⟨by omega, by omega, hs.symm⟩
    | again x =>
      rw [hiter] at h
      exact ih x r s h

/-- C1: on either side of the handshake, peer private data whose magic byte
differs from 0xC0 or whose version byte differs from 0x03 makes the
connection attempt fail: connect never returns true (and from the CLOSED
start state it ends CLOSED, having closed), while _finishAccept returns
false, issues rdma_reject and ends CLOSED. A connection is never established
with mismatched magic or version. -/
theorem C1_mismatch_never_connects (st : ConnState) (env : ConnectEnv)
    (cpd : RDMAConnParamData) (aenv : AcceptEnv)
    (hm : cpd.magic ≠ RDMA_PROTOCOL_MAGIC ∨
          cpd.version ≠ RDMA_PROTOCOL_VERSION) :
    (env.peerCpd = cpd → (connect st env).success = false) ∧
    (env.peerCpd = cpd → st = ConnState.CLOSED →
      (connect st env).state = ConnState.CLOSED) ∧
    (finishAccept cpd aenv).success = false ∧
    (finishAccept cpd aenv).rejected = true ∧
    (finishAccept cpd aenv).state = ConnState.CLOSED := by
  have hacc : finishAccept cpd aenv = ⟨false, ConnState.CLOSED, none, true⟩ := by
    unfold finishAccept
    rw [if_pos hm]
  refine ⟨?_, ?_, by rw [hacc], by rw [hacc], by rw [hacc]⟩
  · intro hp
    cases hsucc : (connect st env).success with
    | false => rfl
    | true =>
      exfalso
      have hc := connect_success_magic st env hsucc
      rw [hp] at hc
      cases hm with
      | inl hmm => exact hmm hc.1
      | inr hmm => exact hmm hc.2
  · intro hp hst
    subst hst
    rcases connect_closed_result env with hc | hc
    · exact hc
    · exfalso
      have hmv := connect_success_magic _ env hc
      rw [hp] at hmv
      cases hm with
      | inl hmm => exact hmm hmv.1
      | inr hmm => exact hmm hmv.2

/-- C1 witness: wrong magic byte 0x00 at an otherwise all-ok environment. -/
theorem C1_mismatch_never_connects_witness :
    (badMagicCpd.magic ≠ RDMA_PROTOCOL_MAGIC ∨
     badMagicCpd.version ≠ RDMA_PROTOCOL_VERSION) ∧
    ((allOkConnectEnv badMagicCpd).peerCpd = badMagicCpd →
      (connect ConnState.CLOSED (allOkConnectEnv badMagicCpd)).success
        = false) ∧
    ((allOkConnectEnv badMagicCpd).peerCpd = badMagicCpd →
      ConnState.CLOSED = ConnState.CLOSED →
      (connect ConnState.CLOSED (allOkConnectEnv badMagicCpd)).state
        = ConnState.CLOSED) ∧
    (finishAccept badMagicCpd allOkAcceptEnv).success = false ∧
    (finishAccept badMagicCpd allOkAcceptEnv).rejected = true ∧
    (finishAccept badMagicCpd allOkAcceptEnv).state = ConnState.CLOSED := by
  have T := C1_mismatch_never_connects ConnState.CLOSED
    (allOkConnectEnv badMagicCpd) badMagicCpd allOkAcceptEnv (by decide)
  exact ⟨by decide, T.1, T.2.1, T.2.2.1, T.2.2.2.1, T.2.2.2.2⟩

/-- C2 counterexample: at negotiated depth 2, which _initProtocol accepts,
the initial write credit is -1 (violating 0 at most write_credits) and the
initial fc credit is 3, exceeding the depth. -/
theorem C2_counterexample :
    initProtocol 2 = some (ProtoState.mk 2 0 0 (-1) 3) ∧
    ¬ (0 ≤ (-1 : Int)) ∧ ¬ ((3 : Int) ≤ 2) := by decide

/-- C2 (amended): for every negotiated depth of at least 4, at every state of
the closed two-party protocol reachable from the _initProtocol values by
received FC messages, received immediate data, posted RDMA writes and posted
FC messages, both write_credits and fc_credits of both sides stay within 0
and depth. For depth 2 and 3 the initial write credit is already negative
(see the counterexample), so the bound holds from depth 4 on. -/
theorem C2_credit_invariant (d : Int) (n : Net) (hd : 4 ≤ d)
    (hr : Reachable d n) :
    (0 ≤ n.a.wcredits ∧ n.a.wcredits ≤ d) ∧
    (0 ≤ n.a.fcredits ∧ n.a.fcredits ≤ d) ∧
    (0 ≤ n.b.wcredits ∧ n.b.wcredits ≤ d) ∧
    (0 ≤ n.b.fcredits ∧ n.b.fcredits ≤ d) := by
  obtain ⟨h1, h2, h3, h4, h5, h6, h7, h8, e1, e2, e3, e4⟩ :=
    reachable_netInv hd hr
  have w1 := sumWrites_nonneg n.fcsBA
  have w2 := sumWrites_nonneg n.fcsAB
  have f1 := sumFcs_nonneg n.writesBA
  have f2 := sumFcs_nonneg n.writesAB
  omega

/-- C2 witness: the initial state at depth 8 is reachable and in bounds. -/
theorem C2_credit_invariant_witness :
    4 ≤ (8 : Int) ∧
    ((0 ≤ (Net.start 8).a.wcredits ∧ (Net.start 8).a.wcredits ≤ 8) ∧
     (0 ≤ (Net.start 8).a.fcredits ∧ (Net.start 8).a.fcredits ≤ 8) ∧
     (0 ≤ (Net.start 8).b.wcredits ∧ (Net.start 8).b.wcredits ≤ 8) ∧
     (0 ≤ (Net.start 8).b.fcredits ∧ (Net.start 8).b.fcredits ≤ 8)) := by
  have T := C2_credit_invariant 8 (Net.start 8) (by decide) Reachable.start
  exact ⟨by decide, T⟩

/-- C3: the immediate value packed by _makeImm carries the byte count in bits
0 to 28 and the reported fc count in bits 28 to 32; the byte field never
exceeds 2 to the 28 minus 1 (the caller clamps every write to
can_put = min( bytes, MAX_BS )), the fc field never exceeds 15, and nothing
is truncated or lost: the fc counter decreases by exactly the reported count
and stays nonnegative (a larger backlog is reported by later writes), and a
larger byte request keeps its remainder for later writes. -/
theorem C3_imm_packing (fcs : Int) (b bytes : Nat) (hf : 0 ≤ fcs)
    (hb : b ≤ MAX_BS) :
    immBytesSent (makeImm fcs b).1 = b ∧
    immFcsRecvd (makeImm fcs b).1 = immFcsReported fcs ∧
    b ≤ 2 ^ 28 - 1 ∧
    immFcsReported fcs ≤ 15 ∧
    ((immFcsReported fcs : Int) ≤ fcs) ∧
    (makeImm fcs b).2 + immFcsReported fcs = fcs ∧
    0 ≤ (makeImm fcs b).2 ∧
    writeCanPut bytes ≤ MAX_BS ∧
    writeCanPut bytes + (bytes - writeCanPut bytes) = bytes := by
  have hr := immFcsReported_le fcs hf
  rw [MAX_BS_eq] at hb
  unfold immBytesSent immFcsRecvd makeImm writeCanPut MAX_BS
  refine ⟨by omega, by omega, by omega, hr.2, hr.1, by omega, by omega,
    by omega, by omega⟩

/-- C3 witness: a backlog of 20 fcs and a 300 byte write report 15 fcs and
300 bytes, leaving 5 fcs for the next write. -/
theorem C3_imm_packing_witness :
    0 ≤ (20 : Int) ∧ 300 ≤ MAX_BS ∧
    (immBytesSent (makeImm 20 300).1 = 300 ∧
     immFcsRecvd (makeImm 20 300).1 = immFcsReported 20 ∧
     300 ≤ 2 ^ 28 - 1 ∧
     immFcsReported 20 ≤ 15 ∧
     ((immFcsReported 20 : Int) ≤ 20) ∧
     (makeImm 20 300).2 + immFcsReported 20 = 20 ∧
     0 ≤ (makeImm 20 300).2 ∧
     writeCanPut (2 ^ 29) ≤ MAX_BS ∧
     writeCanPut (2 ^ 29) + (2 ^ 29 - writeCanPut (2 ^ 29)) = 2 ^ 29) := by
  have T := C3_imm_packing 20 300 (2 ^ 29) (by decide) (by decide)
  exact ⟨by decide, by decide, T⟩

/-- C4 counterexample: receiving the immediate 805306373 (bytes_sent 5,
fcs_received 3) at the depth 8 initial state leaves write_credits unchanged
at 2 instead of raising it to 5: the unpacked fcs count is credited to
fc_credits, not to write_credits as the claim states. -/
theorem C4_counterexample :
    immBytesSent 805306373 = 5 ∧
    immFcsRecvd 805306373 = 3 ∧
    (recvRDMAWrite c4State 805306373).proto.fcredits = 9 ∧
    (recvRDMAWrite c4State 805306373).proto.wcredits = 2 ∧
    ¬ ((recvRDMAWrite c4State 805306373).proto.wcredits =
       c4State.proto.wcredits + (immFcsRecvd 805306373 : Int)) := by decide

/-- C4 (amended): _recvRDMAWrite advances the sink HEAD and the local
available-bytes signal by exactly the unpacked bytes_sent, and adds the
unpacked fcs_received back to the fc_credits counter (not write_credits,
which is untouched); it also counts the write. -/
theorem C4_recv_imm_updates (s : RecvState) (imm : Nat) :
    (recvRDMAWrite s imm).sinkptr.head = s.sinkptr.head + immBytesSent imm ∧
    (recvRDMAWrite s imm).availBytes = s.availBytes + immBytesSent imm ∧
    (recvRDMAWrite s imm).proto.fcredits
      = s.proto.fcredits + immFcsRecvd imm ∧
    (recvRDMAWrite s imm).proto.wcredits = s.proto.wcredits ∧
    (recvRDMAWrite s imm).proto.writes = s.proto.writes + 1 ∧
    (recvRDMAWrite s imm).sinkptr.tail = s.sinkptr.tail := by
  unfold recvRDMAWrite RingPtr.incrHead
  exact ⟨rfl, rfl, rfl, rfl, rfl, rfl⟩

/-- C5: a drain never takes more than the bytes requested nor more than the
bytes available in the sink ring, and hands back exactly the bytes it copied
(TAIL advances by the same count); a fill never puts more than requested and
reports exactly what it copied (HEAD advances by the same count); the write
clamp never exceeds the request; and a completed readSync never returns more
than the requested byte count. -/
theorem C5_read_write_bounds (phys : Nat → Nat) (sink src rview : RingPtr)
    (nbytes : Nat) (st : ConnState) (requested : Nat) (block : Bool)
    (envs : List ReadIterEnv) (r : Int) (s : ConnState)
    (h : readSync st requested block envs = some (r, s)) :
    drainCount sink nbytes ≤ nbytes ∧
    drainCount sink nbytes ≤ sink.available ∧
    ((drain phys sink nbytes).2).length = drainCount sink nbytes ∧
    (drain phys sink nbytes).1.tail = sink.tail + drainCount sink nbytes ∧
    fillCount src rview nbytes ≤ nbytes ∧
    (fill src rview nbytes).2 = fillCount src rview nbytes ∧
    (fill src rview nbytes).1.head = src.head + fillCount src rview nbytes ∧
    writeCanPut nbytes ≤ nbytes ∧
    r ≤ (requested : Int) := by
  refine ⟨Nat.min_le_left _ _, Nat.min_le_right _ _, by simp [drain], rfl,
    ?_, rfl, rfl, Nat.min_le_left _ _, ?_⟩
  · exact le_trans (Nat.min_le_left _ _) (Nat.min_le_left _ _)
  · unfold readSync at h
    split at h
    · simp only [Option.some.injEq, Prod.mk.injEq] at h
      obtain ⟨h1, h2⟩ := h
      omega
    · rcases readSyncLoop_result requested block envs false r s h with
        ⟨h1, h2⟩ | ⟨h1, h2, h3⟩
      · omega
      · exact h2

/-- C5 witness: a readSync on a non-connected state returns -1, well below
the 7 requested bytes; the ring bounds are evaluated on concrete rings. -/
theorem C5_read_write_bounds_witness :
    readSync ConnState.LISTENING 7 true [] = some (-1, ConnState.CLOSED) ∧
    (drainCount c8src 4 ≤ 4 ∧
     drainCount c8src 4 ≤ c8src.available ∧
     ((drain demoPhys c8src 4).2).length = drainCount c8src 4 ∧
     (drain demoPhys c8src 4).1.tail = c8src.tail + drainCount c8src 4 ∧
     fillCount c8src c8rview 4 ≤ 4 ∧
     (fill c8src c8rview 4).2 = fillCount c8src c8rview 4 ∧
     (fill c8src c8rview 4).1.head = c8src.head + fillCount c8src c8rview 4 ∧
     writeCanPut 4 ≤ 4 ∧
     (-1 : Int) ≤ (7 : Nat)) := by
  have T := C5_read_write_bounds demoPhys c8src c8src c8rview 4
    ConnState.LISTENING 7 true [] (-1) ConnState.CLOSED (by decide)
  exact ⟨by decide, T⟩

/-- C6 counterexample: a connect request proposing depth 1 with valid magic
and version is rejected by the acceptor (no clamping to 2 happens): the
accept fails even in the all-ok environment. -/
theorem C6_counterexample :
    (finishAccept depth1Cpd allOkAcceptEnv).success = false ∧
    (finishAccept depth1Cpd allOkAcceptEnv).rejected = true ∧
    (finishAccept depth1Cpd allOkAcceptEnv).proto = none := by decide

/-- C6 (amended): the acceptor initializes its protocol state with exactly
the depth the initiator proposed; a proposed depth below 2 is not clamped
but rejected (_initProtocol fails, the acceptor issues rdma_reject), and a
proposed depth of at least 2 is used as is, the accept succeeding in the
all-ok environment. -/
theorem C6_accept_depth (cpd : RDMAConnParamData) (env : AcceptEnv)
    (hmagic : cpd.magic = RDMA_PROTOCOL_MAGIC)
    (hver : cpd.version = RDMA_PROTOCOL_VERSION) :
    (cpd.depth < 2 →
      (finishAccept cpd env).success = false ∧
      (finishAccept cpd env).rejected = true ∧
      (finishAccept cpd env).proto = none) ∧
    (2 ≤ cpd.depth →
      (finishAccept cpd allOkAcceptEnv).success = true ∧
      (finishAccept cpd allOkAcceptEnv).proto =
        some (ProtoState.mk cpd.depth 0 0 (cpd.depth / 2 - 2)
          (cpd.depth / 2 + 2))) := by
  have hok : ¬ (cpd.magic ≠ RDMA_PROTOCOL_MAGIC ∨
      cpd.version ≠ RDMA_PROTOCOL_VERSION) := by
    simp [hmagic, hver]
  constructor
  · intro hd
    have hnone : initProtocol cpd.depth = none := by
      unfold initProtocol
      rw [if_pos hd]
    unfold finishAccept
    rw [if_neg hok, hnone]
    by_cases hch : acceptChannelOk env = true
    · rw [if_neg (not_not_intro hch)]
      exact ⟨rfl, rfl, rfl⟩
    · rw [if_pos hch]
      exact ⟨rfl, rfl, rfl⟩
  · intro hd
    have hsome : initProtocol cpd.depth =
        some (ProtoState.mk cpd.depth 0 0 (cpd.depth / 2 - 2)
          (cpd.depth / 2 + 2)) := by
      unfold initProtocol
      rw [if_neg (by omega)]
    unfold finishAccept
    rw [if_neg hok, hsome]
    simp [allOkAcceptEnv, acceptChannelOk, acceptVerbsOk, acceptSetupOk]

/-- C6 witness: proposed depth 1 is rejected, not clamped. -/
theorem C6_accept_depth_witness :
    depth1Cpd.magic = RDMA_PROTOCOL_MAGIC ∧
    depth1Cpd.version = RDMA_PROTOCOL_VERSION ∧
    ((depth1Cpd.depth < 2 →
      (finishAccept depth1Cpd allOkAcceptEnv).success = false ∧
      (finishAccept depth1Cpd allOkAcceptEnv).rejected = true ∧
      (finishAccept depth1Cpd allOkAcceptEnv).proto = none) ∧
    (2 ≤ depth1Cpd.depth →
      (finishAccept depth1Cpd allOkAcceptEnv).success = true ∧
      (finishAccept depth1Cpd allOkAcceptEnv).proto =
        some (ProtoState.mk depth1Cpd.depth 0 0 (depth1Cpd.depth / 2 - 2)
          (depth1Cpd.depth / 2 + 2)))) := by
  have T := C6_accept_depth depth1Cpd allOkAcceptEnv (by decide) (by decide)
  exact ⟨by decide, by decide, T⟩

/-- C7: when nothing can be drained, the sink ring is empty and the
connection is no longer established, readSync immediately takes the EOF
path: it closes the connection and returns -1, a negative end-of-stream
indication, instead of returning 0 or spinning until timeout (the remaining
trace and the timeout flags are irrelevant). -/
theorem C7_eof_returns_negative (requested : Nat) (block : Bool)
    (env : ReadIterEnv) (rest : List ReadIterEnv)
    (h1 : env.checkDisconnectedOk = true)
    (h2 : env.cqEvent = true → env.rearmOk = true)
    (h3 : env.checkCQOk = true)
    (h4 : env.established = false)
    (h5 : env.sinkAvailable = 0)
    (h6 : env.bufEvent = true → env.availableBytes ≠ 0) :
    readSync ConnState.CONNECTED requested block (env :: rest) =
      some (-1, ConnState.CLOSED) := by
  have hiter : readSyncIter requested block false env = IterOut.fail := by
    cases hcq : env.cqEvent <;> cases hbe : env.bufEvent <;>
      simp_all [readSyncIter]
  unfold readSync
  rw [if_neg (not_not_intro rfl)]
  unfold readSyncLoop
  rw [hiter]
  rfl


/-- C7 witness: the end-of-stream iteration environment returns -1 at once. -/
theorem C7_eof_returns_negative_witness :
    eofIterEnv.checkDisconnectedOk = true ∧
    (eofIterEnv.cqEvent = true → eofIterEnv.rearmOk = true) ∧
    eofIterEnv.checkCQOk = true ∧
    eofIterEnv.established = false ∧
    eofIterEnv.sinkAvailable = 0 ∧
    (eofIterEnv.bufEvent = true → eofIterEnv.availableBytes ≠ 0) ∧
    readSync ConnState.CONNECTED 9 true [eofIterEnv] =
      some (-1, ConnState.CLOSED) := by
  have T := C7_eof_returns_negative 9 true eofIterEnv [] (by decide)
    (by decide) (by decide) (by decide) (by decide) (by decide)
  exact ⟨by decide, by decide, by decide, by decide, by decide, by decide, T⟩

/-- C8 counterexample: with the source ring at HEAD offset 6 of 8 and 8 free
bytes on both sides, a fill of 4 requested bytes copies only 2 bytes (up to
the end of the buffer), not the min( requested, free ) = 4 bytes the claim
asserts: the WRAP macro is not defined, so a single fill never crosses the
end of the source buffer. -/
theorem C8_counterexample :
    fillCount c8src c8rview 4 = 2 ∧
    fillCountSpec c8src c8rview 4 = 4 ∧
    ¬ (fillCount c8src c8rview 4 = fillCountSpec c8src c8rview 4) := by
  decide

/-- C8 (amended): through the double mapping, a read of length L at most N at
any offset o below N is one single flat slice equal to the circular
contents, both when it stays below N and when it wraps (and the drain is
exactly such a flat slice at the TAIL offset); a single fill however copies
min( requested, free space, N - HEAD offset ) bytes, clamped at the end of
the source buffer (WRAP is not defined), leaving a wrapping window to
subsequent fills. -/
theorem C8_flat_slice (phys : Nat → Nat) (N o len bytes : Nat)
    (src rview : RingPtr) (ho : o < N) (hlen : len ≤ N) :
    (o + len ≤ N → flatSlice phys N o len = segment phys o len) ∧
    (N < o + len →
      flatSlice phys N o len =
        segment phys o (N - o) ++ segment phys 0 (o + len - N)) ∧
    fillCount src rview bytes =
      min (fillCountSpec src rview bytes) (src.size - src.ptr src.head) ∧
    (drain phys src bytes).2 =
      flatSlice phys src.size (src.ptr src.tail) (drainCount src bytes) := by
  refine ⟨?_, ?_, rfl, rfl⟩
  · intro hin
    unfold flatSlice segment
    apply List.map_congr_left
    intro i hi
    have hi' : i < len := List.mem_range.mp hi
    rw [Nat.mod_eq_of_lt (by omega)]
  · intro hwrap
    apply List.ext_getElem
    · simp only [flatSlice, segment, List.length_map, List.length_range,
        List.length_append]
      omega
    · intro i hi1 hi2
      have hilen : i < len := by
        simpa [flatSlice] using hi1
      simp only [flatSlice, List.getElem_map, List.getElem_range]
      by_cases hio : i < N - o
      · rw [List.getElem_append_left
          (by simpa [segment] using hio)]
        simp only [segment, List.getElem_map, List.getElem_range]
        congr 1
        exact Nat.mod_eq_of_lt (by omega)
      · rw [List.getElem_append_right
          (by simpa [segment] using hio)]
        simp only [segment, List.getElem_map, List.getElem_range,
          List.length_map, List.length_range]
        congr 1
        rw [Nat.mod_eq_sub_mod (by omega), Nat.mod_eq_of_lt (by omega)]
        omega

/-- C8 witness: offset 6 of 8 with length 4 wraps; the flat slice equals the
two circular segments, and the concrete fill is clamped at the buffer end. -/
theorem C8_flat_slice_witness :
    6 < 8 ∧ 4 ≤ 8 ∧
    ((6 + 4 ≤ 8 → flatSlice demoPhys 8 6 4 = segment demoPhys 6 4) ∧
     (8 < 6 + 4 →
       flatSlice demoPhys 8 6 4 =
         segment demoPhys 6 (8 - 6) ++ segment demoPhys 0 (6 + 4 - 8)) ∧
     fillCount c8src c8rview 4 =
       min (fillCountSpec c8src c8rview 4) (c8src.size - c8src.ptr c8src.head) ∧
     (drain demoPhys c8src 4).2 =
       flatSlice demoPhys c8src.size (c8src.ptr c8src.tail)
         (drainCount c8src 4)) := by
  have T := C8_flat_slice demoPhys 8 6 4 4 c8src c8rview (by decide) (by decide)
  exact ⟨by decide, by decide, T⟩

/-- Applying _close twice is the same as applying it once. -/
theorem closeOp_closeOp (s : CloseObs) : closeOp (closeOp s) = closeOp s := by
  unfold closeOp
  by_cases h : s.state = ConnState.CLOSED <;> simp [h]

/-- C9: close( ) is idempotent once CLOSED: any n plus 1 consecutive _close
calls have exactly the effect of one, and on a CLOSED connection _close is a
complete no-op (the state stays CLOSED and _cleanup does not run again, so
no resource is released twice). -/
theorem C9_close_idempotent (s : CloseObs) (n : Nat) :
    closeOp^[n + 1] s = closeOp s ∧
    (s.state = ConnState.CLOSED → closeOp s = s) := by
  constructor
  · induction n with
    | zero => simp
    | succ k ih =>
      rw [Function.iterate_succ_apply', ih, closeOp_closeOp]
  · intro h
    unfold closeOp
    rw [if_pos h]

/-- C9 witness: three closes on an already closed connection equal one, and
one is a no-op. -/
theorem C9_close_idempotent_witness :
    closeOp^[2 + 1] (CloseObs.mk ConnState.CLOSED 0) =
      closeOp (CloseObs.mk ConnState.CLOSED 0) ∧
    ((CloseObs.mk ConnState.CLOSED 0).state = ConnState.CLOSED →
      closeOp (CloseObs.mk ConnState.CLOSED 0) =
        CloseObs.mk ConnState.CLOSED 0) :=
  C9_close_idempotent (CloseObs.mk ConnState.CLOSED 0) 2

/-- C10: whenever readSync returns a negative value, on any error path
(called while not CONNECTED, failed event check, failed completion poll,
credit or drain timeout, end of stream, or zero available bytes on a buffer
event), that value is -1 and the goto err path has called close( ) first, so
the caller observes the connection CLOSED. -/
theorem C10_negative_read_closes (st : ConnState) (requested : Nat)
    (block : Bool) (envs : List ReadIterEnv) (r : Int) (s : ConnState)
    (h : readSync st requested block envs = some (r, s)) (hneg : r < 0) :
    r = -1 ∧ s = ConnState.CLOSED := by
  unfold readSync at h
  split at h
  · simp only [closeState, Option.some.injEq, Prod.mk.injEq] at h
    exact ⟨h.1.symm, h.2.symm⟩
  · rcases readSyncLoop_result requested block envs false r s h with
      ⟨ha, hb⟩ | ⟨ha, hb, hc⟩
    · exact ⟨ha, hb⟩
    · omega

/-- C10 witness: a readSync on a listening connection fails with -1 and the
connection is closed. -/
theorem C10_negative_read_closes_witness :
    readSync ConnState.LISTENING 3 false [] =
      some (-1, ConnState.CLOSED) ∧
    (-1 : Int) < 0 ∧
    ((-1 : Int) = -1 ∧ ConnState.CLOSED = ConnState.CLOSED) := by
  have T := C10_negative_read_closes ConnState.LISTENING 3 false [] (-1)
    ConnState.CLOSED (by decide) (by decide)
  exact ⟨by decide, by decide, T⟩

end RDMA
